import Mathlib

/-!
Shallow embedding of the Necklace cross-chain atomic-swap core, checked
against its natural-language specification.

Modelling conventions, shared across the file:

* Byte strings (Move `vector<u8>`, Solidity `bytes`) are `List Nat`, one
  entry per byte.  Solidity `bytes32` values and addresses are plain `Nat`
  identifiers: the code only ever compares them for equality and uses them
  as map keys.
* The Keccak-256 primitive of both host ledgers is kept abstract: every
  definition that hashes takes the hash function as an explicit `keccak`
  parameter.  The code never inspects a digest beyond equality tests and
  re-hashing, so every theorem below holds for the real Keccak-256
  instantiation; theorems that need collision-freedom say so with an
  explicit injectivity hypothesis.
* Move `assert!` / Solidity `require`/`revert` abort the whole transaction
  and roll its effects back.  Stateful operations therefore return
  `Except Err ...`; an `.error` result means the caller's state is
  unchanged.
* `u64`/`uint256` arithmetic is modelled on `Nat`; the quantities involved
  in the claims (stakes, basis points, balances) stay far below the word
  size, and none of the claims hinges on wrap-around.
-/

deriving instance DecidableEq for Except

namespace Necklace

/-- Fixed concrete hash used by witnesses and counterexamples: prepends a
byte, hence injective. The control-flow facts being tested do not depend
on which hash is plugged in. -/
def testHash (bytes : List Nat) : List Nat := 0 :: bytes

theorem testHash_injective : Function.Injective testHash := by
  intro a b h
  simpa [testHash] using h

/-! ## `sui/sui_eth_resolver/sources/types.move` -/

namespace types

/-- Seven timelock offsets, from `types.move` (struct `TimeLocks`). -/
structure TimeLocks where
  src_withdrawal : Nat
  src_public_withdrawal : Nat
  src_cancellation : Nat
  src_public_cancellation : Nat
  dst_withdrawal : Nat
  dst_public_withdrawal : Nat
  dst_cancellation : Nat
  deriving Repr, DecidableEq

/-- Constructor `create_time_locks` from `types.move`: it packs the seven
arguments into the record.  The source contains no validation of any kind
(and no `InvalidTimeLocks` error constant exists anywhere in the repo). -/
def create_time_locks (src_withdrawal src_public_withdrawal src_cancellation
    src_public_cancellation dst_withdrawal dst_public_withdrawal
    dst_cancellation : Nat) : TimeLocks :=
  { src_withdrawal, src_public_withdrawal, src_cancellation,
    src_public_cancellation, dst_withdrawal, dst_public_withdrawal,
    dst_cancellation }

/-- Immutable escrow parameters, from `types.move` (struct `SrcImmutables`). -/
structure SrcImmutables where
  order_hash : List Nat
  hash_lock : List Nat
  maker : Nat
  taker : Nat
  token_type : String
  amount : Nat
  safety_deposit : Nat
  time_locks : TimeLocks
  ethereum_order_hash : List Nat
  deriving Repr, DecidableEq

end types

/-! ## `sui/sui_eth_resolver/sources/escrow.move` -/

namespace escrow

open types

/-- Error constants of `escrow.move` (`E_ESCROW_COMPLETED = 0`,
`E_UNAUTHORIZED = 1`, `E_INVALID_SECRET = 2`, `E_TIME_LOCK_NOT_EXPIRED = 3`). -/
inductive EscrowErr where
  | escrowCompleted
  | unauthorized
  | invalidSecret
  | timeLockNotExpired
  deriving Repr, DecidableEq

/-- State of an `Escrow<T>` object: the two balances are represented by
their `u64` values. -/
structure Escrow where
  immutables : SrcImmutables
  deposited_amount : Nat
  safety_deposit : Nat
  is_completed : Bool
  deriving Repr, DecidableEq

/-- Function `create` of `escrow.move`: fresh escrow with empty balances. -/
def create (immutables : SrcImmutables) : Escrow :=
  { immutables, deposited_amount := 0, safety_deposit := 0,
    is_completed := false }

/-- Function `deposit` of `escrow.move`.  Checks, in source order:
`!is_completed`, then `sender == taker`; it then joins the two provided
coin values into the balances unconditionally (the coin values are not
compared with `immutables.amount` / `immutables.safety_deposit`, and a
second deposit is not rejected). -/
def deposit (e : Escrow) (coin_value safety_value sender : Nat) :
    Except EscrowErr Escrow :=
  if e.is_completed then .error .escrowCompleted
  else if sender ≠ e.immutables.taker then .error .unauthorized
  else .ok { e with
    deposited_amount := e.deposited_amount + coin_value,
    safety_deposit := e.safety_deposit + safety_value }

/-- Function `withdraw` of `escrow.move`.  Checks in source order:
`!is_completed`; `keccak256(secret) == hash_lock`; and, only when the
sender is the taker, `timestamp_ms / 1000 >= time_locks.src_withdrawal`
(no check of any kind for other senders).  On success it sets
`is_completed` and drains both balances, returning their values as the
two coins. -/
def withdraw (keccak : List Nat → List Nat) (e : Escrow) (secret : List Nat)
    (timestamp_ms sender : Nat) : Except EscrowErr (Escrow × Nat × Nat) :=
  if e.is_completed then .error .escrowCompleted
  else if keccak secret ≠ e.immutables.hash_lock then .error .invalidSecret
  else
    -- `current_time` is `timestamp_ms / 1000`, inlined below.
    if sender = e.immutables.taker ∧
        timestamp_ms / 1000 < e.immutables.time_locks.src_withdrawal then
      .error .timeLockNotExpired
    else
      .ok ({ e with
              is_completed := true
              deposited_amount := 0
              safety_deposit := 0 },
           e.deposited_amount, e.safety_deposit)

/-- Function `cancel` of `escrow.move`.  Checks `!is_completed`; the taker
needs `current_time >= src_cancellation`, anyone else needs
`current_time >= src_public_cancellation`.  On success it sets
`is_completed` and drains both balances. -/
def cancel (e : Escrow) (timestamp_ms sender : Nat) :
    Except EscrowErr (Escrow × Nat × Nat) :=
  if e.is_completed then .error .escrowCompleted
  else
    -- `current_time` is `timestamp_ms / 1000`, inlined below.
    if (if sender = e.immutables.taker then
          timestamp_ms / 1000 < e.immutables.time_locks.src_cancellation
        else
          timestamp_ms / 1000 <
            e.immutables.time_locks.src_public_cancellation) then
      .error .timeLockNotExpired
    else
      .ok ({ e with
              is_completed := true
              deposited_amount := 0
              safety_deposit := 0 },
           e.deposited_amount, e.safety_deposit)

/-- Escrow state as seen after a call: Move aborts roll back all effects,
so a failing call leaves the escrow as it was. -/
def withdraw_state (keccak : List Nat → List Nat) (e : Escrow)
    (secret : List Nat) (timestamp_ms sender : Nat) : Escrow :=
  match withdraw keccak e secret timestamp_ms sender with
  | .ok (e2, _, _) => e2
  | .error _ => e

end escrow

/-! ## `sui/sui_eth_resolver/sources/lop_order.move` -/

namespace lop_order

/-- Error constants of `lop_order.move` (`100` .. `105`). -/
inductive LopErr where
  | invalidOrderHash
  | invalidMerkleProof
  | partialFillsNotAllowed
  | invalidFillPercentage
  | secretIndexOutOfBounds
  | emptySecretsList
  deriving Repr, DecidableEq

/-- One pass of the level loop inside `compute_merkle_root`: pair adjacent
nodes (`i += 2`), hashing `left ‖ right`, duplicating a final odd node. -/
def pairUpLevel (keccak : List Nat → List Nat) :
    List (List Nat) → List (List Nat)
  | [] => []
  | [left] => [keccak (left ++ left)]
  | left :: right :: rest =>
      keccak (left ++ right) :: pairUpLevel keccak rest

/-- Length bookkeeping for the level step, needed for termination of the
level loop. -/
theorem pairUpLevel_length (keccak : List Nat → List Nat) :
    ∀ lvl : List (List Nat),
      (pairUpLevel keccak lvl).length = (lvl.length + 1) / 2
  | [] => by simp [pairUpLevel]
  | [left] => by simp [pairUpLevel]
  | left :: right :: rest => by
      simp only [pairUpLevel, List.length_cons,
        pairUpLevel_length keccak rest]
      omega

/-- Function `compute_merkle_root` of `lop_order.move`: run the level loop
until one node remains.  The source indexes `current_level[0]` at the end
and its only caller guards against the empty list, so the `[]` branch is
unreachable in context; it returns the empty digest. -/
def compute_merkle_root (keccak : List Nat → List Nat)
    (leaves : List (List Nat)) : List Nat :=
  match leaves with
  | [] => []
  | [root] => root
  | l₁ :: l₂ :: rest =>
      compute_merkle_root keccak (pairUpLevel keccak (l₁ :: l₂ :: rest))
  termination_by leaves.length
  decreasing_by simp [pairUpLevel_length]; omega

/-- Loop body of `verify_merkle_proof`, walking the proof: even index
hashes `h ‖ sib`, odd index hashes `sib ‖ h`, then `index /= 2`. -/
def verifyFold (keccak : List Nat → List Nat) :
    List Nat → List (List Nat) → Nat → List Nat
  | h, [], _ => h
  | h, sib :: rest, index =>
      verifyFold keccak
        (if index % 2 = 0 then keccak (h ++ sib) else keccak (sib ++ h))
        rest (index / 2)

/-- Function `verify_merkle_proof` of `lop_order.move`. -/
def verify_merkle_proof (keccak : List Nat → List Nat) (leaf : List Nat)
    (proof : List (List Nat)) (root : List Nat) (index : Nat) : Bool :=
  verifyFold keccak leaf proof index == root

/-- Function `calculate_depth` of `lop_order.move`. -/
def calculate_depth (num_leaves : Nat) : Nat :=
  if num_leaves ≤ 1 then 0 else 1 + calculate_depth ((num_leaves + 1) / 2)
  termination_by num_leaves
  decreasing_by omega

/-- Sibling of node `i` inside one tree level, per the pairing rule of
`compute_merkle_root` (the final odd node is its own sibling).  This is
the path material the spec's round-trip property quantifies over; the
source itself only consumes such paths. -/
def siblingAt (lvl : List (List Nat)) (i : Nat) : List Nat :=
  if i % 2 = 0 then
    if i + 1 < lvl.length then lvl.getD (i + 1) [] else lvl.getD i []
  else lvl.getD (i - 1) []

/-- Concatenation fed to the hash for node `i` of a level: node first
when `i` is even, sibling first when odd — exactly how `pairUpLevel`
pairs the level and how `verify_merkle_proof` orders its operands. -/
def combineAt (lvl : List (List Nat)) (i : Nat) : List Nat :=
  if i % 2 = 0 then lvl.getD i [] ++ siblingAt lvl i
  else siblingAt lvl i ++ lvl.getD i []

/-- Sibling path of leaf `i`, one entry per level of the tree built by
`compute_merkle_root`. -/
def merklePath (keccak : List Nat → List Nat) (lvl : List (List Nat))
    (i : Nat) : List (List Nat) :=
  match lvl with
  | [] => []
  | [_] => []
  | l₁ :: l₂ :: rest =>
      siblingAt (l₁ :: l₂ :: rest) i ::
        merklePath keccak (pairUpLevel keccak (l₁ :: l₂ :: rest)) (i / 2)
  termination_by lvl.length
  decreasing_by simp [pairUpLevel_length]; omega

/-- Struct `MerkleTree` of `lop_order.move`. -/
structure MerkleTree where
  root : List Nat
  leaves : List (List Nat)
  depth : Nat
  deriving Repr, DecidableEq

/-- Function `create_merkle_tree` of `lop_order.move`: asserts the secrets
list is non-empty (`E_EMPTY_SECRETS_LIST`), hashes every secret into a
leaf, and runs `compute_merkle_root`. -/
def create_merkle_tree (keccak : List Nat → List Nat)
    (secrets : List (List Nat)) : Except LopErr MerkleTree :=
  if secrets.length = 0 then .error .emptySecretsList
  else
    let leaves := secrets.map keccak
    .ok { root := compute_merkle_root keccak leaves, leaves,
          depth := calculate_depth secrets.length }

/-- Struct `PartialFillLOPOrder` of `lop_order.move` (the fields the
partial-fill flow reads and writes). -/
structure PartialFillLOPOrder where
  salt : List Nat
  maker : Nat
  receiver : Nat
  maker_asset : String
  taker_asset : String
  making_amount : Nat
  taking_amount : Nat
  maker_traits : List Nat
  merkle_root : List Nat
  fill_percentage : Nat
  secret_index : Nat
  allow_partial_fills : Bool
  total_secrets : Nat
  deriving Repr, DecidableEq

/-- Function `validate_partial_fill` of `lop_order.move`: asserts
`allow_partial_fills`, `fill_percentage <= 10000`,
`secret_index < total_secrets`, then returns the result of the Merkle
proof check on `keccak256(secret)`. -/
def validate_partial_fill (keccak : List Nat → List Nat)
    (order : PartialFillLOPOrder) (secret : List Nat)
    (merkle_proof : List (List Nat)) (secret_index fill_percentage : Nat) :
    Except LopErr Bool :=
  if ¬ order.allow_partial_fills then .error .partialFillsNotAllowed
  else if ¬ (fill_percentage ≤ 10000) then .error .invalidFillPercentage
  else if ¬ (secret_index < order.total_secrets) then
    .error .secretIndexOutOfBounds
  else
    .ok (verify_merkle_proof keccak (keccak secret) merkle_proof
          order.merkle_root secret_index)

/-- Function `execute_partial_fill` of `lop_order.move`: validates, then
adds `fill_percentage` onto the order's accumulator (no bound on the
accumulated total), records `secret_index`, and returns the updated order
together with `making_amount * fill_percentage / 10000`. -/
def execute_partial_fill (keccak : List Nat → List Nat)
    (order : PartialFillLOPOrder) (secret : List Nat)
    (merkle_proof : List (List Nat)) (secret_index fill_percentage : Nat) :
    Except LopErr (PartialFillLOPOrder × Nat) :=
  match validate_partial_fill keccak order secret merkle_proof secret_index
      fill_percentage with
  | .error e => .error e
  | .ok valid =>
      if ¬ valid then .error .invalidMerkleProof
      else
        .ok ({ order with
                fill_percentage := order.fill_percentage + fill_percentage
                secret_index := secret_index },
             order.making_amount * fill_percentage / 10000)

end lop_order

/-! ## `SuiVerifier` (Solidity, `src/unnamed/part_005`) -/

namespace SuiVerifier

/-- Errors of the verifier contract that the modelled paths can raise. -/
inductive VerifierErr where
  | insufficientStake
  | checkpointNotVerified
  | invalidMerkleProof
  deriving Repr, DecidableEq

/-- Struct `ValidatorSignature`: raw signature bytes, public-key bytes and
stake weight. -/
structure ValidatorSignature where
  signature : List Nat
  publicKey : List Nat
  stake : Nat
  deriving Repr, DecidableEq

/-- Contract storage: the two memoization mappings, modelled as the lists
of keys currently mapped to `true` (nothing ever writes `false`). -/
structure VerifierState where
  verifiedCheckpoints : List Nat
  verifiedTransactions : List Nat
  deriving Repr, DecidableEq

/-- Function `_verifyEd25519Signature` of the contract.  The source is an
explicit placeholder: it ignores the message entirely and accepts exactly
when the signature is 64 bytes long and the public key 32 bytes long. -/
def _verifyEd25519Signature (_message : Nat) (signature publicKey : List Nat) :
    Bool :=
  signature.length == 64 && publicKey.length == 32

/-- Total presented stake of a signature list. -/
def totalStake (signatures : List ValidatorSignature) : Nat :=
  (signatures.map (·.stake)).sum

/-- Stake summed over the signatures the placeholder verifier accepts for
`checkpointHash`. -/
def signedStake (checkpointHash : Nat)
    (signatures : List ValidatorSignature) : Nat :=
  ((signatures.filter fun s =>
      _verifyEd25519Signature checkpointHash s.signature s.publicKey).map
    (·.stake)).sum

/-- Function `verifySuiCheckpoint`: short-circuits on a memoized
checkpoint; otherwise sums total and signed stake, reverts with
`InsufficientStake` when `signedStake * 10000 < totalStake * 6667`, and
on success memoizes the checkpoint and returns `true`. -/
def verifySuiCheckpoint (st : VerifierState) (checkpointHash : Nat)
    (signatures : List ValidatorSignature) (_sequence : Nat) :
    Except VerifierErr (VerifierState × Bool) :=
  if st.verifiedCheckpoints.contains checkpointHash then .ok (st, true)
  else if signedStake checkpointHash signatures * 10000 <
      totalStake signatures * 6667 then
    .error .insufficientStake
  else
    .ok ({ st with
            verifiedCheckpoints := checkpointHash :: st.verifiedCheckpoints },
         true)

/-- Loop of `_verifyMerkleProof` (sorted-pair scheme): the byte blob of
proof material is modelled as the list of its 32-byte words. -/
def sortedPairFold (keccak : List Nat → List Nat) (toBytes : Nat → List Nat)
    (leOrd : Nat → Nat → Bool) (fromBytes : List Nat → Nat) :
    Nat → List Nat → Nat
  | h, [] => h
  | h, p :: rest =>
      sortedPairFold keccak toBytes leOrd fromBytes
        (if leOrd h p then fromBytes (keccak (toBytes h ++ toBytes p))
         else fromBytes (keccak (toBytes p ++ toBytes h)))
        rest

/-- Function `verifySuiTransaction`: requires the checkpoint memoized,
checks the sorted-pair Merkle proof of the transaction hash, memoizes the
transaction.  The word-level hashing plumbing is abstracted by the same
parameters as `sortedPairFold`. -/
def verifySuiTransaction (keccak : List Nat → List Nat)
    (toBytes : Nat → List Nat) (leOrd : Nat → Nat → Bool)
    (fromBytes : List Nat → Nat) (st : VerifierState)
    (transactionHash checkpointHash : Nat) (merkleProof : List Nat) :
    Except VerifierErr (VerifierState × Bool) :=
  if ¬ st.verifiedCheckpoints.contains checkpointHash then
    .error .checkpointNotVerified
  else if sortedPairFold keccak toBytes leOrd fromBytes transactionHash
      merkleProof ≠ checkpointHash then
    .error .invalidMerkleProof
  else
    .ok ({ st with
            verifiedTransactions := transactionHash ::
              st.verifiedTransactions },
         true)

end SuiVerifier

/-! ## `SuiResolver` (Solidity, `src/unnamed/part_006`) -/

namespace SuiResolver

/-- Failure modes of the modelled resolver entry points (Solidity
`require` strings and custom errors; `escrowCallReverted` stands for a
revert propagated out of the external `escrow.withdraw` / `escrow.cancel`
call, which rolls the whole transaction back). -/
inductive ResolverErr where
  | invalidSecret
  | invalidEscrowId
  | secretAlreadyCoordinated
  | invalidOrderHash
  | noSecretAvailable
  | secretNotCoordinated
  | secretAlreadyUsed
  | suiTransactionNotVerified
  | secretAlreadyRevealed
  | coordinationTooRecent
  | escrowCallReverted
  deriving Repr, DecidableEq

/-- Value lookup in a `mapping(bytes32 => ...)` modelled as an association
list with cons-shadowing; absent keys give the Solidity zero default. -/
def mget (m : List (Nat × Nat)) (k : Nat) : Nat :=
  match m.find? (fun p => p.1 == k) with
  | some p => p.2
  | none => 0

/-- Mapping store: the new pair shadows any earlier binding. -/
def mset (m : List (Nat × Nat)) (k v : Nat) : List (Nat × Nat) :=
  (k, v) :: m

/-- Coordination storage of the `SuiResolver` contract.  Boolean mappings
are modelled as the lists of keys mapped to `true`; `delete` on
`secretCoordinated` removes the key.  The status-string mapping is kept
for fidelity. -/
structure ResolverState where
  liveSecrets : List (Nat × Nat)
  secretCoordinated : List Nat
  secretTimestamp : List (Nat × Nat)
  secretCoordinator : List (Nat × Nat)
  coordinationStatus : List (Nat × String)
  suiEscrowToOrder : List (Nat × Nat)
  orderToSuiEscrow : List (Nat × Nat)
  crossChainMappingExists : List Nat
  revealedSecrets : List Nat
  deriving Repr, DecidableEq

/-- Status-string mapping store. -/
def sset (m : List (Nat × String)) (k : Nat) (v : String) :
    List (Nat × String) :=
  (k, v) :: m

/-- Fresh contract storage (all mappings empty). -/
def initState : ResolverState :=
  { liveSecrets := [], secretCoordinated := [], secretTimestamp := [],
    secretCoordinator := [], coordinationStatus := [],
    suiEscrowToOrder := [], orderToSuiEscrow := [],
    crossChainMappingExists := [], revealedSecrets := [] }

/-- Function `coordinateSecretFromSui`: requires a non-zero secret and
escrow id and that the secret is not yet coordinated; stores the four
secret-indexed entries, and lazily inserts the bidirectional mapping when
`suiEscrowToOrder[suiEscrowId]` is still zero. -/
def coordinateSecretFromSui (st : ResolverState)
    (suiEscrowId revealedSecret ethereumOrderHash sender time : Nat) :
    Except ResolverErr ResolverState :=
  if revealedSecret = 0 then .error .invalidSecret
  else if suiEscrowId = 0 then .error .invalidEscrowId
  else if st.secretCoordinated.contains revealedSecret then
    .error .secretAlreadyCoordinated
  -- the lazily inserted mapping: `suiEscrowToOrder` is untouched by the
  -- secret stores, so the emptiness test reads the incoming state.
  else if mget st.suiEscrowToOrder suiEscrowId = 0 then
    .ok { st with
            liveSecrets := mset st.liveSecrets suiEscrowId revealedSecret
            secretCoordinated := revealedSecret :: st.secretCoordinated
            secretTimestamp := mset st.secretTimestamp revealedSecret time
            secretCoordinator :=
              mset st.secretCoordinator revealedSecret sender
            coordinationStatus :=
              sset st.coordinationStatus suiEscrowId "SECRET_COORDINATED"
            suiEscrowToOrder :=
              mset st.suiEscrowToOrder suiEscrowId ethereumOrderHash
            orderToSuiEscrow :=
              mset st.orderToSuiEscrow ethereumOrderHash suiEscrowId
            crossChainMappingExists :=
              ethereumOrderHash :: st.crossChainMappingExists }
  else
    .ok { st with
            liveSecrets := mset st.liveSecrets suiEscrowId revealedSecret
            secretCoordinated := revealedSecret :: st.secretCoordinated
            secretTimestamp := mset st.secretTimestamp revealedSecret time
            secretCoordinator :=
              mset st.secretCoordinator revealedSecret sender
            coordinationStatus :=
              sset st.coordinationStatus suiEscrowId "SECRET_COORDINATED" }

/-- Function `registerCrossChainMapping`: requires both ids non-zero and
overwrites the bidirectional mapping. -/
def registerCrossChainMapping (st : ResolverState)
    (suiEscrowId ethereumOrderHash : Nat) :
    Except ResolverErr ResolverState :=
  if suiEscrowId = 0 then .error .invalidEscrowId
  else if ethereumOrderHash = 0 then .error .invalidOrderHash
  else
    .ok { st with
            suiEscrowToOrder :=
              mset st.suiEscrowToOrder suiEscrowId ethereumOrderHash
            orderToSuiEscrow :=
              mset st.orderToSuiEscrow ethereumOrderHash suiEscrowId
            crossChainMappingExists :=
              ethereumOrderHash :: st.crossChainMappingExists }

/-- Function `withdrawWithCoordinatedSecret`: looks the secret up by Sui
escrow id, requires it non-zero, coordinated, and not already used, marks
it used, then performs the external `escrow.withdraw(secret, immutables)`
call (abstracted by `escrowOk`; a reverting escrow call rolls the whole
transaction back). -/
def withdrawWithCoordinatedSecret (st : ResolverState) (suiEscrowId : Nat)
    (escrowOk : Bool) : Except ResolverErr ResolverState :=
  -- `secret` is `mget st.liveSecrets suiEscrowId`, inlined below.
  if mget st.liveSecrets suiEscrowId = 0 then .error .noSecretAvailable
  else if ¬ st.secretCoordinated.contains
      (mget st.liveSecrets suiEscrowId) then
    .error .secretNotCoordinated
  else if st.revealedSecrets.contains (mget st.liveSecrets suiEscrowId) then
    .error .secretAlreadyUsed
  else if ¬ escrowOk then .error .escrowCallReverted
  else
    .ok { st with
            revealedSecrets :=
              mget st.liveSecrets suiEscrowId :: st.revealedSecrets
            coordinationStatus :=
              sset st.coordinationStatus suiEscrowId
                "SECRET_USED_ON_ETHEREUM" }

/-- Function `withdrawWithSuiSecret`: verifies the Sui transaction proof
(abstracted by `proofOk`), takes the secret carried by the withdrawal
event, rejects an already-used secret, marks it used, then calls the
escrow. -/
def withdrawWithSuiSecret (st : ResolverState) (secret : Nat)
    (proofOk escrowOk : Bool) : Except ResolverErr ResolverState :=
  if ¬ proofOk then .error .suiTransactionNotVerified
  else if st.revealedSecrets.contains secret then
    .error .secretAlreadyRevealed
  else if ¬ escrowOk then .error .escrowCallReverted
  else .ok { st with revealedSecrets := secret :: st.revealedSecrets }

/-- Function `_coordinateSecretInternal` (used by the batch loop): stores
the four secret entries and overwrites the mapping, with no zero checks. -/
def _coordinateSecretInternal (st : ResolverState)
    (suiEscrowId revealedSecret ethereumOrderHash sender time : Nat) :
    ResolverState :=
  { st with
      liveSecrets := mset st.liveSecrets suiEscrowId revealedSecret
      secretCoordinated := revealedSecret :: st.secretCoordinated
      secretTimestamp := mset st.secretTimestamp revealedSecret time
      secretCoordinator := mset st.secretCoordinator revealedSecret sender
      coordinationStatus :=
        sset st.coordinationStatus suiEscrowId "SECRET_COORDINATED"
      suiEscrowToOrder :=
        mset st.suiEscrowToOrder suiEscrowId ethereumOrderHash
      orderToSuiEscrow :=
        mset st.orderToSuiEscrow ethereumOrderHash suiEscrowId }

/-- Function `batchCoordinateSecrets`: loops over the triples, silently
skipping any secret already coordinated. -/
def batchCoordinateSecrets (st : ResolverState)
    (entries : List (Nat × Nat × Nat)) (sender time : Nat) : ResolverState :=
  match entries with
  | [] => st
  | (suiEscrowId, secret, orderHash) :: rest =>
      let st1 :=
        if st.secretCoordinated.contains secret then st
        else _coordinateSecretInternal st suiEscrowId secret orderHash
          sender time
      batchCoordinateSecrets st1 rest sender time

/-- Function `emergencyResetCoordination` (owner-only): requires the
coordination to be older than `COORDINATION_TIMEOUT = 3600`, then deletes
the four secret-indexed entries (note: `revealedSecrets` is not touched). -/
def emergencyResetCoordination (st : ResolverState)
    (suiEscrowId time : Nat) : Except ResolverErr ResolverState :=
  -- `secret` is `mget st.liveSecrets suiEscrowId`, inlined below.
  if ¬ (mget st.secretTimestamp (mget st.liveSecrets suiEscrowId) + 3600 <
      time) then
    .error .coordinationTooRecent
  else
    .ok { st with
            liveSecrets := mset st.liveSecrets suiEscrowId 0
            secretCoordinated :=
              st.secretCoordinated.filter
                (fun s => s ≠ mget st.liveSecrets suiEscrowId)
            secretTimestamp :=
              mset st.secretTimestamp (mget st.liveSecrets suiEscrowId) 0
            secretCoordinator :=
              mset st.secretCoordinator (mget st.liveSecrets suiEscrowId) 0
            coordinationStatus :=
              sset st.coordinationStatus suiEscrowId "RESET" }

/-- Function `cancelWithSuiCoordination`: cancels the escrow (abstracted
by `escrowOk`) and deletes the bidirectional mapping entries. -/
def cancelWithSuiCoordination (st : ResolverState) (suiEscrowId : Nat)
    (escrowOk : Bool) : Except ResolverErr ResolverState :=
  if ¬ escrowOk then .error .escrowCallReverted
  else
    .ok { st with
            suiEscrowToOrder := mset st.suiEscrowToOrder suiEscrowId 0
            orderToSuiEscrow :=
              mset st.orderToSuiEscrow
                (mget st.suiEscrowToOrder suiEscrowId) 0
            coordinationStatus :=
              sset st.coordinationStatus suiEscrowId "CANCELLED" }

/-- Mapping writes performed by `deploySrcWithSuiProof` (step 3 of that
function; the proof verification, escrow deployment and LOP fill around
them do not touch the coordination storage). -/
def deploySrcMappingWrites (st : ResolverState)
    (suiEscrowId orderHash : Nat) : ResolverState :=
  { st with
      suiEscrowToOrder := mset st.suiEscrowToOrder suiEscrowId orderHash
      orderToSuiEscrow := mset st.orderToSuiEscrow orderHash suiEscrowId
      crossChainMappingExists := orderHash :: st.crossChainMappingExists }

/-- The state-mutating entry points of the resolver, as transitions. -/
inductive Op where
  | coordinate (suiEscrowId revealedSecret ethereumOrderHash sender
      time : Nat)
  | registerMapping (suiEscrowId ethereumOrderHash : Nat)
  | withdrawCoordinated (suiEscrowId : Nat) (escrowOk : Bool)
  | withdrawSui (secret : Nat) (proofOk escrowOk : Bool)
  | batchCoordinate (entries : List (Nat × Nat × Nat)) (sender time : Nat)
  | reset (suiEscrowId time : Nat)
  | cancelCoordination (suiEscrowId : Nat) (escrowOk : Bool)
  | deploySrc (suiEscrowId orderHash : Nat)
  deriving Repr, DecidableEq

/-- Transaction semantics of one call: a reverting call leaves the
contract storage unchanged. -/
def applyOp (st : ResolverState) (op : Op) : ResolverState :=
  match op with
  | .coordinate a b c d e =>
      match coordinateSecretFromSui st a b c d e with
      | .ok st2 => st2
      | .error _ => st
  | .registerMapping a b =>
      match registerCrossChainMapping st a b with
      | .ok st2 => st2
      | .error _ => st
  | .withdrawCoordinated a ok =>
      match withdrawWithCoordinatedSecret st a ok with
      | .ok st2 => st2
      | .error _ => st
  | .withdrawSui s pOk eOk =>
      match withdrawWithSuiSecret st s pOk eOk with
      | .ok st2 => st2
      | .error _ => st
  | .batchCoordinate entries sender time =>
      batchCoordinateSecrets st entries sender time
  | .reset a time =>
      match emergencyResetCoordination st a time with
      | .ok st2 => st2
      | .error _ => st
  | .cancelCoordination a ok =>
      match cancelWithSuiCoordination st a ok with
      | .ok st2 => st2
      | .error _ => st
  | .deploySrc a b => deploySrcMappingWrites st a b

/-- Storage after a sequence of calls. -/
def execTrace (st : ResolverState) (ops : List Op) : ResolverState :=
  ops.foldl applyOp st

/-- Consumption invariant for a secret `s`: every Sui escrow id whose
live-secret entry is `s` has `s` coordinated, and at most one id maps to
`s`.  It holds in every reachable state and is what makes a repeat
consumption of `s` fail at the `revealedSecrets` check rather than
earlier. -/
def ConsumeInv (s : Nat) (live : List (Nat × Nat)) (coord : List Nat) :
    Prop :=
  (∀ id, mget live id = s → coord.contains s = true) ∧
  (∀ id1 id2, mget live id1 = s → mget live id2 = s → id1 = id2)

end SuiResolver

/-! ## Concrete fixtures used by witnesses and counterexamples -/

/-- Timelock offsets of the spec's happy-path scenario S1. -/
def sampleTimeLocks : types.TimeLocks :=
  types.create_time_locks 15 60 120 180 15 60 120

/-- Concrete escrow immutables (hash lock commits to the secret `[42]`
under `testHash`). -/
def sampleImmutables : types.SrcImmutables :=
  { order_hash := [1], hash_lock := testHash [42], maker := 10, taker := 20,
    token_type := "0x2::sui::SUI", amount := 1000, safety_deposit := 100,
    time_locks := sampleTimeLocks, ethereum_order_hash := [2] }

/-- Freshly created escrow for `sampleImmutables`. -/
def sampleEscrowEmpty : escrow.Escrow := escrow.create sampleImmutables

/-- The same escrow after the taker's deposit. -/
def sampleEscrowFunded : escrow.Escrow :=
  { immutables := sampleImmutables, deposited_amount := 1000,
    safety_deposit := 100, is_completed := false }

/-- A terminal (completed) escrow. -/
def sampleEscrowDone : escrow.Escrow :=
  { sampleEscrowFunded with is_completed := true }

/-! ## Claim theorems -/

open types escrow

/-- C1 (counterexample): the claim says a secret whose hash differs from
the hash lock makes `withdraw` fail with `InvalidSecret` for every escrow
and any such secret; on an already-completed escrow the completion check
fires first, so the failure is `EscrowCompleted` instead. -/
theorem withdraw_completed_escrow_wrong_error :
    escrow.withdraw testHash sampleEscrowDone [3] 0 0 =
      .error .escrowCompleted ∧
    testHash [3] ≠ sampleEscrowDone.immutables.hash_lock := by
  decide

/-- C1 (amended): every successful `withdraw` was given a secret whose
hash equals `immutables.hash_lock`; on a not-yet-completed escrow, a
secret whose hash differs makes `withdraw` fail with `InvalidSecret` and
leaves the escrow (hence both balances) unchanged. -/
theorem withdraw_hashlock_soundness (keccak : List Nat → List Nat)
    (e : Escrow) (secret : List Nat) (timestamp_ms sender : Nat) :
    (∀ e2 c s, escrow.withdraw keccak e secret timestamp_ms sender =
        .ok (e2, c, s) → keccak secret = e.immutables.hash_lock) ∧
    (e.is_completed = false → keccak secret ≠ e.immutables.hash_lock →
      escrow.withdraw keccak e secret timestamp_ms sender =
        .error .invalidSecret ∧
      escrow.withdraw_state keccak e secret timestamp_ms sender = e) := by
  constructor
  · intro e2 c s h
    unfold escrow.withdraw at h
    by_cases hc : e.is_completed
    · simp [hc] at h
    · by_cases hh : keccak secret = e.immutables.hash_lock
      · exact hh
      · simp [hc, hh] at h
  · intro hc hh
    refine ⟨?_, ?_⟩
    · unfold escrow.withdraw
      simp [hc, hh]
    · unfold escrow.withdraw_state escrow.withdraw
      simp [hc, hh]

/-- C1 (witness): concrete instance of the amended theorem — a wrong
secret on the funded sample escrow yields `InvalidSecret` and no state
change. -/
theorem withdraw_hashlock_soundness_witness :
    escrow.withdraw testHash sampleEscrowFunded [3] 0 0 =
      .error .invalidSecret ∧
    escrow.withdraw_state testHash sampleEscrowFunded [3] 0 0 =
      sampleEscrowFunded :=
  (withdraw_hashlock_soundness testHash sampleEscrowFunded [3] 0 0).2
    (by decide) (by decide)

/-- C2 (counterexample): the claim says a non-taker caller may only
withdraw once the public-withdraw phase has opened, failing with
`TimeLockNotExpired` before that; in the code a non-taker caller with the
right secret succeeds at time 0, before `src_public_withdrawal = 60`. -/
theorem withdraw_public_phase_not_enforced :
    escrow.withdraw testHash sampleEscrowFunded [42] 0 99 =
      .ok ({ sampleEscrowFunded with
              is_completed := true
              deposited_amount := 0
              safety_deposit := 0 }, 1000, 100) := by
  decide

/-- C2 (amended): for a live escrow and a correct secret, `withdraw`
gates on time only when the caller is the taker, comparing the absolute
clock reading `timestamp_ms / 1000` (the escrow stores no creation time
`t0`) against the `src_withdrawal` offset and failing with
`TimeLockNotExpired` below it; any other caller succeeds at any time (no
`SrcPublicWithdraw` phase check exists). -/
theorem withdraw_timelock_characterization (keccak : List Nat → List Nat)
    (e : Escrow) (secret : List Nat) (timestamp_ms sender : Nat)
    (hc : e.is_completed = false)
    (hh : keccak secret = e.immutables.hash_lock) :
    (sender = e.immutables.taker →
      timestamp_ms / 1000 < e.immutables.time_locks.src_withdrawal →
      escrow.withdraw keccak e secret timestamp_ms sender =
        .error .timeLockNotExpired) ∧
    (sender = e.immutables.taker →
      e.immutables.time_locks.src_withdrawal ≤ timestamp_ms / 1000 →
      escrow.withdraw keccak e secret timestamp_ms sender =
        .ok ({ e with
                is_completed := true
                deposited_amount := 0
                safety_deposit := 0 },
             e.deposited_amount, e.safety_deposit)) ∧
    (sender ≠ e.immutables.taker →
      escrow.withdraw keccak e secret timestamp_ms sender =
        .ok ({ e with
                is_completed := true
                deposited_amount := 0
                safety_deposit := 0 },
             e.deposited_amount, e.safety_deposit)) := by
  refine ⟨?_, ?_, ?_⟩
  · intro ht hlt
    unfold escrow.withdraw
    simp [hc, hh, ht, hlt]
  · intro ht hge
    unfold escrow.withdraw
    simp [hc, hh, ht, Nat.not_lt.mpr hge]
  · intro ht
    unfold escrow.withdraw
    simp [hc, hh, ht]

/-- C2 (witness): concrete instance of the amended theorem — the taker
withdraws successfully at 20 s, past `src_withdrawal = 15`. -/
theorem withdraw_timelock_characterization_witness :
    escrow.withdraw testHash sampleEscrowFunded [42] 20000 20 =
      .ok ({ sampleEscrowFunded with
              is_completed := true
              deposited_amount := 0
              safety_deposit := 0 }, 1000, 100) :=
  (withdraw_timelock_characterization testHash sampleEscrowFunded [42]
      20000 20 (by decide) (by decide)).2.1 (by decide) (by decide)

/-- C4: a successful `withdraw` or `cancel` returns, in the same step, an
escrow whose `is_completed` flag is set and whose two balances are both
zero (no state with the flag and the balances disagreeing is
constructible from a successful call), and on a completed escrow every
`deposit`, `withdraw` and `cancel` fails with `EscrowCompleted`. -/
theorem escrow_terminal_state (keccak : List Nat → List Nat) (e : Escrow)
    (secret : List Nat) (timestamp_ms sender : Nat) :
    (∀ e2 c s, escrow.withdraw keccak e secret timestamp_ms sender =
        .ok (e2, c, s) →
      e2.is_completed = true ∧ e2.deposited_amount = 0 ∧
        e2.safety_deposit = 0) ∧
    (∀ e2 c s, escrow.cancel e timestamp_ms sender = .ok (e2, c, s) →
      e2.is_completed = true ∧ e2.deposited_amount = 0 ∧
        e2.safety_deposit = 0) ∧
    (e.is_completed = true → ∀ coin_value safety_value,
      escrow.deposit e coin_value safety_value sender =
        .error .escrowCompleted ∧
      escrow.withdraw keccak e secret timestamp_ms sender =
        .error .escrowCompleted ∧
      escrow.cancel e timestamp_ms sender = .error .escrowCompleted) := by
  refine ⟨?_, ?_, ?_⟩
  · intro e2 c s h
    unfold escrow.withdraw at h
    split_ifs at h with h1 h2 h3
    simp only [Except.ok.injEq, Prod.mk.injEq] at h
    obtain ⟨he, -, -⟩ := h
    subst he
    exact ⟨rfl, rfl, rfl⟩
  · intro e2 c s h
    unfold escrow.cancel at h
    split_ifs at h <;>
      · simp only [Except.ok.injEq, Prod.mk.injEq] at h
        obtain ⟨he, -, -⟩ := h
        subst he
        exact ⟨rfl, rfl, rfl⟩
  · intro hc coin_value safety_value
    refine ⟨?_, ?_, ?_⟩
    · unfold escrow.deposit; simp [hc]
    · unfold escrow.withdraw; simp [hc]
    · unfold escrow.cancel; simp [hc]

/-- C4 (witness): concrete instance — every mutation on the completed
sample escrow fails with `EscrowCompleted`. -/
theorem escrow_terminal_state_witness :
    escrow.deposit sampleEscrowDone 5 5 20 = .error .escrowCompleted ∧
    escrow.withdraw testHash sampleEscrowDone [42] 0 20 =
      .error .escrowCompleted ∧
    escrow.cancel sampleEscrowDone 0 20 = .error .escrowCompleted :=
  (escrow_terminal_state testHash sampleEscrowDone [42] 0 20).2.2 rfl 5 5

/-- C5 (counterexample): the claim says every `TimeLocks` value returned
by `create_time_locks` satisfies the strict ordering; the constructor
accepts `5, 4, 3, 2, 1, 0, 0`, whose `src_withdrawal` is not below its
`src_public_withdrawal`. -/
theorem create_time_locks_accepts_unordered :
    ¬ (types.create_time_locks 5 4 3 2 1 0 0).src_withdrawal <
        (types.create_time_locks 5 4 3 2 1 0 0).src_public_withdrawal := by
  decide

/-- C5 (amended): `create_time_locks` performs no validation whatsoever —
it never fails, simply storing its seven arguments verbatim in the
record; no `InvalidTimeLocks` error exists in the module, and the
returned offsets need not satisfy any ordering. -/
theorem create_time_locks_no_validation (src_withdrawal
    src_public_withdrawal src_cancellation src_public_cancellation
    dst_withdrawal dst_public_withdrawal dst_cancellation : Nat) :
    types.create_time_locks src_withdrawal src_public_withdrawal
        src_cancellation src_public_cancellation dst_withdrawal
        dst_public_withdrawal dst_cancellation =
      { src_withdrawal, src_public_withdrawal, src_cancellation,
        src_public_cancellation, dst_withdrawal, dst_public_withdrawal,
        dst_cancellation } := rfl

/-- C6 (counterexample): the claim says `deposit` succeeds only when the
coin values match `immutables.amount` and `immutables.safety_deposit`;
the taker deposits `7` and `3` into the sample escrow (whose immutables
demand `1000` and `100`) and the call succeeds. -/
theorem deposit_accepts_wrong_amounts :
    escrow.deposit sampleEscrowEmpty 7 3 20 =
      .ok { sampleEscrowEmpty with
              deposited_amount := 7
              safety_deposit := 3 } := by
  decide

/-- C6 (amended): `deposit` succeeds exactly when the escrow is not
completed and the caller is the taker — the coin values are never
compared with the immutables, and a second deposit into an already-funded
escrow is accepted (no `AlreadyFunded` check exists; the module has no
such error constant); the failure cases are `EscrowCompleted` and
`Unauthorized`, and a failed deposit changes nothing. -/
theorem deposit_characterization (e : Escrow)
    (coin_value safety_value sender : Nat) :
    (e.is_completed = true →
      escrow.deposit e coin_value safety_value sender =
        .error .escrowCompleted) ∧
    (e.is_completed = false → sender ≠ e.immutables.taker →
      escrow.deposit e coin_value safety_value sender =
        .error .unauthorized) ∧
    (e.is_completed = false → sender = e.immutables.taker →
      escrow.deposit e coin_value safety_value sender =
        .ok { e with
                deposited_amount := e.deposited_amount + coin_value
                safety_deposit := e.safety_deposit + safety_value }) := by
  refine ⟨?_, ?_, ?_⟩
  · intro hc
    unfold escrow.deposit; simp [hc]
  · intro hc hs
    unfold escrow.deposit; simp [hc, hs]
  · intro hc hs
    unfold escrow.deposit; simp [hc, hs]

/-- C6 (witness): concrete instance of the amended theorem — a second
deposit by the taker into the already-funded sample escrow succeeds. -/
theorem deposit_characterization_witness :
    escrow.deposit sampleEscrowFunded 1000 100 20 =
      .ok { sampleEscrowFunded with
              deposited_amount := 2000
              safety_deposit := 200 } :=
  (deposit_characterization sampleEscrowFunded 1000 100 20).2.2
    (by decide) (by decide)

open SuiVerifier

/-- A 64-byte all-zero signature blob with a 32-byte public key and stake
10: the placeholder length check accepts it. -/
def sampleValidatorSig : ValidatorSignature :=
  { signature := List.replicate 64 0, publicKey := List.replicate 32 0,
    stake := 10 }

/-- The same validator signature with the low bit of its first byte
flipped: still 64 bytes long. -/
def sampleFlippedSig : ValidatorSignature :=
  { signature := 1 :: List.replicate 63 0, publicKey := List.replicate 32 0,
    stake := 10 }

/-- Verifier contract with empty memoization mappings. -/
def freshVerifier : VerifierState :=
  { verifiedCheckpoints := [], verifiedTransactions := [] }

/-- Presented stake bounds signed stake: the signed sum ranges over a
filtered sublist. -/
theorem signedStake_le_totalStake (checkpointHash : Nat) :
    ∀ sigs : List ValidatorSignature,
      signedStake checkpointHash sigs ≤ totalStake sigs
  | [] => Nat.le_refl 0
  | sig :: rest => by
      have ih := signedStake_le_totalStake checkpointHash rest
      by_cases hp : _verifyEd25519Signature checkpointHash sig.signature
          sig.publicKey = true
      · simp only [signedStake, totalStake, List.filter_cons, hp,
          if_true, List.map_cons, List.sum_cons] at ih ⊢
        omega
      · simp only [Bool.not_eq_true] at hp
        simp only [signedStake, totalStake, List.filter_cons, hp,
          Bool.false_eq_true, if_false, List.map_cons, List.sum_cons]
          at ih ⊢
        omega

/-- C3 (counterexample): the claim says flipping a single bit of a
verified signature removes its stake and makes a checkpoint that was at
the 2/3 threshold be rejected; `_verifyEd25519Signature` is a placeholder
that only checks the byte lengths (64 and 32), so the bit-flipped
signature still counts and the checkpoint is still accepted and
memoized. -/
theorem checkpoint_bitflip_still_accepted :
    verifySuiCheckpoint freshVerifier 5 [sampleValidatorSig] 1 =
      .ok ({ verifiedCheckpoints := [5], verifiedTransactions := [] },
           true) ∧
    sampleFlippedSig.signature ≠ sampleValidatorSig.signature ∧
    verifySuiCheckpoint freshVerifier 5 [sampleFlippedSig] 1 =
      .ok ({ verifiedCheckpoints := [5], verifiedTransactions := [] },
           true) := by
  refine ⟨by decide, by decide, by decide⟩

/-- C3 (amended): on a not-yet-memoized checkpoint, `verifySuiCheckpoint`
accepts (memoizing the checkpoint and returning true) exactly when
`signed_stake * 10000 >= total_stake * 6667` and otherwise reverts with
`InsufficientStake`, where `total_stake` sums all presented stakes and
`signed_stake` sums the stakes of exactly those signatures whose
signature blob is 64 bytes and public key 32 bytes long —
`_verifyEd25519Signature` is a length-check placeholder, it performs no
Ed25519 verification, so altering signature bits never changes the
outcome. -/
theorem verifySuiCheckpoint_stake_threshold (st : VerifierState)
    (checkpointHash : Nat) (sigs : List ValidatorSignature) (seq : Nat)
    (hfresh : st.verifiedCheckpoints.contains checkpointHash = false) :
    (totalStake sigs * 6667 ≤ signedStake checkpointHash sigs * 10000 →
      verifySuiCheckpoint st checkpointHash sigs seq =
        .ok ({ st with
                verifiedCheckpoints :=
                  checkpointHash :: st.verifiedCheckpoints }, true)) ∧
    (signedStake checkpointHash sigs * 10000 <
        totalStake sigs * 6667 →
      verifySuiCheckpoint st checkpointHash sigs seq =
        .error .insufficientStake) ∧
    signedStake checkpointHash sigs =
      ((sigs.filter fun s =>
          s.signature.length == 64 && s.publicKey.length == 32).map
        (·.stake)).sum := by
  have hmem : checkpointHash ∉ st.verifiedCheckpoints := by
    simpa using hfresh
  refine ⟨?_, ?_, rfl⟩
  · intro hge
    unfold verifySuiCheckpoint
    simp [hmem, Nat.not_lt.mpr hge]
  · intro hlt
    unfold verifySuiCheckpoint
    simp [hmem, hlt]

/-- C3 (witness): concrete instance of the amended theorem — a single
length-valid signature carries all presented stake, so the fresh
checkpoint is accepted and memoized. -/
theorem verifySuiCheckpoint_stake_threshold_witness :
    verifySuiCheckpoint freshVerifier 9 [sampleValidatorSig] 2 =
      .ok ({ verifiedCheckpoints := [9], verifiedTransactions := [] },
           true) :=
  (verifySuiCheckpoint_stake_threshold freshVerifier 9
      [sampleValidatorSig] 2 (by decide)).1 (by decide)

/-- C10: with zero total presented stake (in particular an empty
signature list) `verifySuiCheckpoint` does not revert with
`InsufficientStake`: the failure condition is false, the checkpoint is
marked verified and memoized, true is returned, and both verifier entry
points preserve the memoization forever after. -/
theorem verifySuiCheckpoint_zero_stake_accepts (st : VerifierState)
    (checkpointHash : Nat) (sigs : List ValidatorSignature) (seq : Nat)
    (hz : totalStake sigs = 0) :
    verifySuiCheckpoint st checkpointHash sigs seq =
      .ok ((if st.verifiedCheckpoints.contains checkpointHash then st
            else { st with
                    verifiedCheckpoints :=
                      checkpointHash :: st.verifiedCheckpoints }),
           true) ∧
    ((if st.verifiedCheckpoints.contains checkpointHash then st
      else { st with
              verifiedCheckpoints :=
                checkpointHash :: st.verifiedCheckpoints }) :
        VerifierState).verifiedCheckpoints.contains checkpointHash =
      true ∧
    (∀ st2 : VerifierState,
      st2.verifiedCheckpoints.contains checkpointHash = true →
      (∀ h2 sigs2 seq2 st3 b,
        verifySuiCheckpoint st2 h2 sigs2 seq2 = .ok (st3, b) →
        st3.verifiedCheckpoints.contains checkpointHash = true) ∧
      (∀ keccak toBytes leOrd fromBytes tx cp proof st3 b,
        verifySuiTransaction keccak toBytes leOrd fromBytes st2 tx cp
            proof = .ok (st3, b) →
        st3.verifiedCheckpoints.contains checkpointHash = true)) := by
  have hs : signedStake checkpointHash sigs = 0 :=
    Nat.le_antisymm (hz ▸ signedStake_le_totalStake checkpointHash sigs)
      (Nat.zero_le _)
  refine ⟨?_, ?_, ?_⟩
  · unfold verifySuiCheckpoint
    by_cases hm : checkpointHash ∈ st.verifiedCheckpoints
    · simp [hm]
    · simp [hm, hz, hs]
  · by_cases hm : checkpointHash ∈ st.verifiedCheckpoints
    · simp [hm]
    · simp [hm]
  · intro st2 hmem
    constructor
    · intro h2 sigs2 seq2 st3 b h
      unfold verifySuiCheckpoint at h
      split_ifs at h <;>
        · simp only [Except.ok.injEq, Prod.mk.injEq] at h
          obtain ⟨hst, -⟩ := h
          subst hst
          simp_all [List.contains_cons]
    · intro keccak toBytes leOrd fromBytes tx cp proof st3 b h
      unfold verifySuiTransaction at h
      split_ifs at h
      simp only [Except.ok.injEq, Prod.mk.injEq] at h
      obtain ⟨hst, -⟩ := h
      subst hst
      simp_all

/-- C10 (witness): concrete instance — the empty signature list verifies
a fresh checkpoint. -/
theorem verifySuiCheckpoint_zero_stake_accepts_witness :
    verifySuiCheckpoint freshVerifier 7 [] 0 =
      .ok ({ verifiedCheckpoints := [7], verifiedTransactions := [] },
           true) := by
  have h := (verifySuiCheckpoint_zero_stake_accepts freshVerifier 7 [] 0
    (by decide)).1
  simpa using h

open lop_order

/-- Partial-fill order over a single secret `[7]` hashed by `testHash`
(whose one-leaf Merkle root is the leaf itself), with partial fills
allowed and nothing filled yet. -/
def sampleFillOrder : PartialFillLOPOrder :=
  { salt := [0], maker := 1, receiver := 2, maker_asset := "A",
    taker_asset := "B", making_amount := 1000000, taking_amount := 500,
    maker_traits := [0], merkle_root := testHash [7],
    fill_percentage := 0, secret_index := 0, allow_partial_fills := true,
    total_secrets := 1 }

/-- Accumulated `fill_percentage` after two successive successful
80 %-fills of `sampleFillOrder`. -/
def sampleTwoFillsAccumulated : Except LopErr Nat :=
  (execute_partial_fill testHash sampleFillOrder [7] [] 0 8000).bind
    fun r =>
      (execute_partial_fill testHash r.1 [7] [] 0 8000).map
        fun r2 => r2.1.fill_percentage

/-- C8 (counterexample): the claim bounds the accumulated
`fill_percentage` of an order by 10_000 basis points; two successful
8000-bp fills of the same one-secret order both succeed and leave the
accumulator at 16_000. -/
theorem execute_partial_fill_overfill :
    sampleTwoFillsAccumulated = .ok 16000 ∧ ¬ (16000 ≤ 10000) := by
  decide

/-- C8 (amended): each individual successful `execute_partial_fill` has
`fill_percentage <= 10_000` and adds it onto the order's accumulator,
returning `making_amount * fill_percentage / 10_000`; the accumulated
total is not checked against 10_000 and can exceed it. -/
theorem execute_partial_fill_accumulates (keccak : List Nat → List Nat)
    (order : PartialFillLOPOrder) (secret : List Nat)
    (merkle_proof : List (List Nat)) (secret_index fill_percentage : Nat) :
    ∀ order2 amount,
      execute_partial_fill keccak order secret merkle_proof secret_index
          fill_percentage = .ok (order2, amount) →
      fill_percentage ≤ 10000 ∧
      order2.fill_percentage = order.fill_percentage + fill_percentage ∧
      amount = order.making_amount * fill_percentage / 10000 := by
  intro order2 amount h
  unfold execute_partial_fill at h
  cases hval : validate_partial_fill keccak order secret merkle_proof
      secret_index fill_percentage with
  | error e => rw [hval] at h; simp at h
  | ok valid =>
      rw [hval] at h
      dsimp only at h
      have hfill : fill_percentage ≤ 10000 := by
        unfold validate_partial_fill at hval
        split_ifs at hval with h1 h2 h3
        any_goals simp at hval
        exact h2
      by_cases hb : valid = true
      · rw [if_neg (by simp [hb])] at h
        simp only [Except.ok.injEq, Prod.mk.injEq] at h
        obtain ⟨rfl, rfl⟩ := h
        exact ⟨hfill, rfl, rfl⟩
      · rw [if_pos (by simp [hb])] at h
        exact absurd h (by simp)

/-- C8 (witness): concrete instance of the amended theorem — a single
2500-bp fill of the sample order accumulates to 2500 and pays out a
quarter of the making amount. -/
theorem execute_partial_fill_accumulates_witness :
    2500 ≤ 10000 ∧
    ({ sampleFillOrder with
        fill_percentage := 2500
        secret_index := 0 } : PartialFillLOPOrder).fill_percentage =
      sampleFillOrder.fill_percentage + 2500 ∧
    250000 = sampleFillOrder.making_amount * 2500 / 10000 :=
  execute_partial_fill_accumulates testHash sampleFillOrder [7] [] 0 2500
    { sampleFillOrder with fill_percentage := 2500, secret_index := 0 }
    250000 (by decide)

/-- Sibling lookup is invariant under dropping one full pair from the
front of a level (index shifted by two). -/
theorem siblingAt_cons₂ (x y : List Nat) (rest : List (List Nat))
    (i : Nat) : siblingAt (x :: y :: rest) (i + 2) = siblingAt rest i := by
  unfold siblingAt
  rw [Nat.add_mod_right i 2]
  by_cases hp : i % 2 = 0
  · rw [if_pos hp, if_pos hp]
    by_cases hlt : i + 1 < rest.length
    · rw [if_pos (by simp only [List.length_cons]; omega),
        if_pos hlt]
      show (x :: y :: rest).getD (i + 1 + 2) [] = rest.getD (i + 1) []
      rw [List.getD_cons_succ, List.getD_cons_succ]
    · rw [if_neg (by simp only [List.length_cons]; omega),
        if_neg hlt]
      show (x :: y :: rest).getD (i + 2) [] = rest.getD i []
      rw [List.getD_cons_succ, List.getD_cons_succ]
  · rw [if_neg hp, if_neg hp]
    obtain ⟨j, rfl⟩ : ∃ j, i = j + 1 := ⟨i - 1, by omega⟩
    show (x :: y :: rest).getD (j + 2) [] = rest.getD j []
    rw [List.getD_cons_succ, List.getD_cons_succ]

/-- Node `i / 2` of the next level is the hash of the combination at
node `i` of the current level. -/
theorem pairUpLevel_getD (keccak : List Nat → List Nat) :
    ∀ (lvl : List (List Nat)) (i : Nat), i < lvl.length →
      (pairUpLevel keccak lvl).getD (i / 2) [] = keccak (combineAt lvl i)
  | [], i, hi => absurd hi (by simp)
  | [x], i, hi => by
      have h0 : i = 0 := by
        simp only [List.length_singleton] at hi
        omega
      subst h0
      simp [pairUpLevel, combineAt, siblingAt]
  | x :: y :: rest, i, hi => by
      match i with
      | 0 => simp [pairUpLevel, combineAt, siblingAt]
      | 1 => simp [pairUpLevel, combineAt, siblingAt]
      | (j + 2) =>
        have hj : j < rest.length := by
          simp only [List.length_cons] at hi
          omega
        have hdiv : (j + 2) / 2 = j / 2 + 1 := by omega
        rw [hdiv]
        show (keccak (x ++ y) :: pairUpLevel keccak rest).getD (j / 2 + 1)
            [] = keccak (combineAt (x :: y :: rest) (j + 2))
        rw [List.getD_cons_succ, pairUpLevel_getD keccak rest j hj]
        congr 1
        unfold combineAt
        rw [siblingAt_cons₂, Nat.add_mod_right j 2]
        by_cases hp : j % 2 = 0
        · rw [if_pos hp, if_pos hp]
          congr 1
        · rw [if_neg hp, if_neg hp]
          congr 1

/-- Round trip at the `verifyFold` level: walking the sibling path of
leaf `i` reproduces the Merkle root of the level. -/
theorem verifyFold_merklePath (keccak : List Nat → List Nat) :
    ∀ (lvl : List (List Nat)) (i : Nat), i < lvl.length →
      verifyFold keccak (lvl.getD i []) (merklePath keccak lvl i) i =
        compute_merkle_root keccak lvl
  | [], i, hi => absurd hi (by simp)
  | [x], i, hi => by
      have h0 : i = 0 := by
        simp only [List.length_singleton] at hi
        omega
      subst h0
      simp [merklePath, verifyFold, compute_merkle_root]
  | x :: y :: rest, i, hi => by
      have hlt : i / 2 < (pairUpLevel keccak (x :: y :: rest)).length := by
        rw [pairUpLevel_length]
        simp only [List.length_cons] at hi ⊢
        omega
      have ih := verifyFold_merklePath keccak
        (pairUpLevel keccak (x :: y :: rest)) (i / 2) hlt
      rw [merklePath, verifyFold, compute_merkle_root, ← ih]
      congr 1
      rw [pairUpLevel_getD keccak _ i hi]
      unfold combineAt
      by_cases hp : i % 2 = 0
      · rw [if_pos hp, if_pos hp]
      · rw [if_neg hp, if_neg hp]
  termination_by lvl => lvl.length
  decreasing_by simp [pairUpLevel_length]; omega

/-- With an injective hash, `verifyFold` is injective in its accumulator
for a fixed path and index. -/
theorem verifyFold_acc_ne (keccak : List Nat → List Nat)
    (hinj : Function.Injective keccak) :
    ∀ (proof : List (List Nat)) (index : Nat) (h1 h2 : List Nat),
      h1 ≠ h2 →
      verifyFold keccak h1 proof index ≠ verifyFold keccak h2 proof index
  | [], _, h1, h2, hne => hne
  | sib :: rest, index, h1, h2, hne => by
      rw [verifyFold, verifyFold]
      apply verifyFold_acc_ne keccak hinj rest (index / 2)
      by_cases hp : index % 2 = 0
      · rw [if_pos hp, if_pos hp]
        intro he
        exact hne (List.append_cancel_right (hinj he))
      · rw [if_neg hp, if_neg hp]
        intro he
        exact hne (List.append_cancel_left (hinj he))

/-- With an injective hash, changing any single path element changes the
final `verifyFold` value. -/
theorem verifyFold_set_ne (keccak : List Nat → List Nat)
    (hinj : Function.Injective keccak) :
    ∀ (proof : List (List Nat)) (k : Nat), k < proof.length →
      ∀ q : List Nat, q ≠ proof.getD k [] → ∀ (h : List Nat) (index : Nat),
      verifyFold keccak h (proof.set k q) index ≠
        verifyFold keccak h proof index
  | [], k, hk, _, _, _, _ => absurd hk (by simp)
  | sib :: rest, 0, _, q, hq, h, index => by
      have hq2 : q ≠ sib := by simpa using hq
      show verifyFold keccak h (q :: rest) index ≠
        verifyFold keccak h (sib :: rest) index
      rw [verifyFold, verifyFold]
      apply verifyFold_acc_ne keccak hinj rest (index / 2)
      by_cases hp : index % 2 = 0
      · rw [if_pos hp, if_pos hp]
        intro he
        exact hq2 (List.append_cancel_left (hinj he))
      · rw [if_neg hp, if_neg hp]
        intro he
        exact hq2 (List.append_cancel_right (hinj he))
  | sib :: rest, k + 1, hk, q, hq, h, index => by
      have hk2 : k < rest.length := by simpa using hk
      have hq2 : q ≠ rest.getD k [] := by simpa using hq
      show verifyFold keccak h (sib :: rest.set k q) index ≠
        verifyFold keccak h (sib :: rest) index
      rw [verifyFold, verifyFold]
      exact verifyFold_set_ne keccak hinj rest k hk2 q hq2 _ (index / 2)

/-- C9: building the Merkle tree from any non-empty secrets list
(`create_merkle_tree` succeeding) and verifying leaf `i` against its
sibling path reproduces the root, for every `i`; and — the hash being
collision-free, stated as injectivity — replacing the leaf, or any one
element of the path, makes `verify_merkle_proof` return `false`. -/
theorem merkle_proof_round_trip (keccak : List Nat → List Nat)
    (hinj : Function.Injective keccak) (secrets : List (List Nat))
    (tree : MerkleTree)
    (htree : create_merkle_tree keccak secrets = .ok tree) (i : Nat)
    (hi : i < tree.leaves.length) :
    verify_merkle_proof keccak (tree.leaves.getD i [])
        (merklePath keccak tree.leaves i) tree.root i = true ∧
    (∀ leaf2, leaf2 ≠ tree.leaves.getD i [] →
      verify_merkle_proof keccak leaf2 (merklePath keccak tree.leaves i)
        tree.root i = false) ∧
    (∀ k, k < (merklePath keccak tree.leaves i).length →
      ∀ q, q ≠ (merklePath keccak tree.leaves i).getD k [] →
      verify_merkle_proof keccak (tree.leaves.getD i [])
        ((merklePath keccak tree.leaves i).set k q) tree.root i =
        false) := by
  have hroot : tree.root = compute_merkle_root keccak tree.leaves := by
    unfold create_merkle_tree at htree
    split_ifs at htree
    simp only [Except.ok.injEq] at htree
    rw [← htree]
  have hrt := verifyFold_merklePath keccak tree.leaves i hi
  refine ⟨?_, ?_, ?_⟩
  · unfold verify_merkle_proof
    rw [hrt, hroot]
    exact beq_self_eq_true _
  · intro leaf2 hne
    unfold verify_merkle_proof
    rw [beq_eq_false_iff_ne, hroot, ← hrt]
    exact verifyFold_acc_ne keccak hinj _ i leaf2 _ hne
  · intro k hk q hq
    unfold verify_merkle_proof
    rw [beq_eq_false_iff_ne, hroot, ← hrt]
    exact verifyFold_set_ne keccak hinj _ k hk q hq _ i

/-- C9 (witness): concrete instance — leaf 1 of the three-secret tree
under `testHash` verifies against its sibling path and root, computed
explicitly. -/
theorem merkle_proof_round_trip_witness :
    verify_merkle_proof testHash [0, 2]
        (merklePath testHash [[0, 1], [0, 2], [0, 3]] 1)
        [0, 0, 0, 1, 0, 2, 0, 0, 3, 0, 3] 1 = true :=
  (merkle_proof_round_trip testHash testHash_injective [[1], [2], [3]]
      { root := [0, 0, 0, 1, 0, 2, 0, 0, 3, 0, 3],
        leaves := [[0, 1], [0, 2], [0, 3]], depth := 2 }
      (by simp [create_merkle_tree, compute_merkle_root, pairUpLevel,
        calculate_depth, testHash])
      1 (by simp)).1

open SuiResolver

/-- Lookup after storing the same key. -/
theorem mget_mset_self (m : List (Nat × Nat)) (k v : Nat) :
    mget (mset m k v) k = v := by
  unfold mget mset
  rw [List.find?_cons_of_pos _ (by simp)]

/-- Lookup after storing a different key. -/
theorem mget_mset_ne (m : List (Nat × Nat)) (k v k2 : Nat) (h : k2 ≠ k) :
    mget (mset m k v) k2 = mget m k2 := by
  unfold mget mset
  rw [List.find?_cons_of_neg _ (by simp [Ne.symm h])]

/-- Membership in a boolean-set list survives a cons. -/
theorem contains_cons_of (l : List Nat) (a s : Nat)
    (h : l.contains s = true) : (a :: l).contains s = true := by
  have := List.elem_iff.mp h
  exact List.elem_iff.mpr (List.mem_cons_of_mem a this)

/-- Membership in the filtered coordination set. -/
theorem contains_filter_iff (l : List Nat) (y s : Nat) :
    (l.filter (fun x => x ≠ y)).contains s = true ↔ s ∈ l ∧ s ≠ y := by
  rw [List.elem_iff, List.mem_filter]
  simp

/-- One coordination store step (guarded by the secret not yet being
coordinated) preserves the consumption invariant. -/
theorem consumeInv_insert (s : Nat) (live : List (Nat × Nat))
    (coord : List Nat) (hI : ConsumeInv s live coord) (a b : Nat)
    (hguard : coord.contains b = false) :
    ConsumeInv s (mset live a b) (b :: coord) := by
  obtain ⟨hI1, hI2⟩ := hI
  constructor
  · intro id hid
    by_cases hida : id = a
    · subst hida
      rw [mget_mset_self] at hid
      subst hid
      simp
    · rw [mget_mset_ne _ _ _ _ hida] at hid
      exact contains_cons_of _ _ _ (hI1 id hid)
  · intro id1 id2 h1 h2
    by_cases h1a : id1 = a <;> by_cases h2a : id2 = a
    · rw [h1a, h2a]
    · subst h1a
      rw [mget_mset_self] at h1
      rw [mget_mset_ne _ _ _ _ h2a] at h2
      exact absurd (hI1 id2 h2) (by rw [h1] at hguard; rw [hguard]; decide)
    · subst h2a
      rw [mget_mset_self] at h2
      rw [mget_mset_ne _ _ _ _ h1a] at h1
      exact absurd (hI1 id1 h1) (by rw [h2] at hguard; rw [hguard]; decide)
    · rw [mget_mset_ne _ _ _ _ h1a] at h1
      rw [mget_mset_ne _ _ _ _ h2a] at h2
      exact hI2 id1 id2 h1 h2

/-- The emergency-reset step (zero the live entry of one id, drop its
secret from the coordination set) preserves the consumption invariant. -/
theorem consumeInv_remove (s : Nat) (hs : s ≠ 0) (live : List (Nat × Nat))
    (coord : List Nat) (hI : ConsumeInv s live coord) (a : Nat) :
    ConsumeInv s (mset live a 0)
      (coord.filter (fun x => x ≠ mget live a)) := by
  obtain ⟨hI1, hI2⟩ := hI
  constructor
  · intro id hid
    by_cases hida : id = a
    · subst hida
      rw [mget_mset_self] at hid
      exact absurd hid.symm hs
    · rw [mget_mset_ne _ _ _ _ hida] at hid
      rw [contains_filter_iff]
      refine ⟨List.elem_iff.mp (hI1 id hid), ?_⟩
      intro hsec
      exact hida (hI2 id a hid hsec.symm)
  · intro id1 id2 h1 h2
    by_cases h1a : id1 = a
    · subst h1a
      rw [mget_mset_self] at h1
      exact absurd h1.symm hs
    · by_cases h2a : id2 = a
      · subst h2a
        rw [mget_mset_self] at h2
        exact absurd h2.symm hs
      · rw [mget_mset_ne _ _ _ _ h1a] at h1
        rw [mget_mset_ne _ _ _ _ h2a] at h2
        exact hI2 id1 id2 h1 h2

/-- The batch loop preserves the consumption invariant. -/
theorem consumeInv_batch (s : Nat) :
    ∀ (entries : List (Nat × Nat × Nat)) (st : ResolverState)
      (sender time : Nat),
      ConsumeInv s st.liveSecrets st.secretCoordinated →
      ConsumeInv s
        (batchCoordinateSecrets st entries sender time).liveSecrets
        (batchCoordinateSecrets st entries sender time).secretCoordinated
  | [], _, _, _, hI => hI
  | (a, b, c) :: rest, st, sender, time, hI => by
      rw [batchCoordinateSecrets]
      by_cases hc : st.secretCoordinated.contains b = true
      · rw [if_pos hc]
        exact consumeInv_batch s rest st sender time hI
      · rw [if_neg hc]
        refine consumeInv_batch s rest _ sender time ?_
        exact consumeInv_insert s st.liveSecrets st.secretCoordinated hI
          a b (Bool.not_eq_true _ ▸ hc)

/-- Every resolver entry point preserves the consumption invariant. -/
theorem consumeInv_applyOp (s : Nat) (hs : s ≠ 0) (st : ResolverState)
    (op : Op) (hI : ConsumeInv s st.liveSecrets st.secretCoordinated) :
    ConsumeInv s (applyOp st op).liveSecrets
      (applyOp st op).secretCoordinated := by
  cases op with
  | coordinate a b c d e =>
      show ConsumeInv s
        (match coordinateSecretFromSui st a b c d e with
          | .ok st2 => st2 | .error _ => st).liveSecrets
        (match coordinateSecretFromSui st a b c d e with
          | .ok st2 => st2 | .error _ => st).secretCoordinated
      unfold coordinateSecretFromSui
      split_ifs with h1 h2 h3 h4
      · exact hI
      · exact hI
      · exact hI
      · exact consumeInv_insert s st.liveSecrets st.secretCoordinated hI
          a b (Bool.not_eq_true _ ▸ h3)
      · exact consumeInv_insert s st.liveSecrets st.secretCoordinated hI
          a b (Bool.not_eq_true _ ▸ h3)
  | registerMapping a b =>
      show ConsumeInv s
        (match registerCrossChainMapping st a b with
          | .ok st2 => st2 | .error _ => st).liveSecrets
        (match registerCrossChainMapping st a b with
          | .ok st2 => st2 | .error _ => st).secretCoordinated
      unfold registerCrossChainMapping
      split_ifs <;> exact hI
  | withdrawCoordinated a ok =>
      show ConsumeInv s
        (match withdrawWithCoordinatedSecret st a ok with
          | .ok st2 => st2 | .error _ => st).liveSecrets
        (match withdrawWithCoordinatedSecret st a ok with
          | .ok st2 => st2 | .error _ => st).secretCoordinated
      unfold withdrawWithCoordinatedSecret
      split_ifs <;> exact hI
  | withdrawSui a pOk eOk =>
      show ConsumeInv s
        (match withdrawWithSuiSecret st a pOk eOk with
          | .ok st2 => st2 | .error _ => st).liveSecrets
        (match withdrawWithSuiSecret st a pOk eOk with
          | .ok st2 => st2 | .error _ => st).secretCoordinated
      unfold withdrawWithSuiSecret
      split_ifs <;> exact hI
  | batchCoordinate entries sender time =>
      exact consumeInv_batch s entries st sender time hI
  | reset a time =>
      show ConsumeInv s
        (match emergencyResetCoordination st a time with
          | .ok st2 => st2 | .error _ => st).liveSecrets
        (match emergencyResetCoordination st a time with
          | .ok st2 => st2 | .error _ => st).secretCoordinated
      unfold emergencyResetCoordination
      split_ifs
      · exact consumeInv_remove s hs st.liveSecrets st.secretCoordinated
          hI a
      · exact hI
  | cancelCoordination a ok =>
      show ConsumeInv s
        (match cancelWithSuiCoordination st a ok with
          | .ok st2 => st2 | .error _ => st).liveSecrets
        (match cancelWithSuiCoordination st a ok with
          | .ok st2 => st2 | .error _ => st).secretCoordinated
      unfold cancelWithSuiCoordination
      split_ifs <;> exact hI
  | deploySrc a b => exact hI

/-- The batch loop never touches `revealedSecrets`. -/
theorem batch_revealed_eq :
    ∀ (entries : List (Nat × Nat × Nat)) (st : ResolverState)
      (sender time : Nat),
      (batchCoordinateSecrets st entries sender time).revealedSecrets =
        st.revealedSecrets
  | [], _, _, _ => rfl
  | (a, b, c) :: rest, st, sender, time => by
      rw [batchCoordinateSecrets]
      by_cases hc : st.secretCoordinated.contains b = true
      · rw [if_pos hc]
        exact batch_revealed_eq rest st sender time
      · rw [if_neg hc]
        exact batch_revealed_eq rest _ sender time

/-- No resolver entry point ever removes a secret from
`revealedSecrets`. -/
theorem revealed_mono_applyOp (s : Nat) (st : ResolverState) (op : Op)
    (hr : st.revealedSecrets.contains s = true) :
    (applyOp st op).revealedSecrets.contains s = true := by
  cases op with
  | coordinate a b c d e =>
      show (match coordinateSecretFromSui st a b c d e with
        | .ok st2 => st2
        | .error _ => st).revealedSecrets.contains s = true
      unfold coordinateSecretFromSui
      split_ifs <;> exact hr
  | registerMapping a b =>
      show (match registerCrossChainMapping st a b with
        | .ok st2 => st2
        | .error _ => st).revealedSecrets.contains s = true
      unfold registerCrossChainMapping
      split_ifs <;> exact hr
  | withdrawCoordinated a ok =>
      show (match withdrawWithCoordinatedSecret st a ok with
        | .ok st2 => st2
        | .error _ => st).revealedSecrets.contains s = true
      unfold withdrawWithCoordinatedSecret
      split_ifs <;> first
        | exact hr
        | exact contains_cons_of _ _ _ hr
  | withdrawSui a pOk eOk =>
      show (match withdrawWithSuiSecret st a pOk eOk with
        | .ok st2 => st2
        | .error _ => st).revealedSecrets.contains s = true
      unfold withdrawWithSuiSecret
      split_ifs <;> first
        | exact hr
        | exact contains_cons_of _ _ _ hr
  | batchCoordinate entries sender time =>
      rw [show (applyOp st (.batchCoordinate entries sender time)) =
        batchCoordinateSecrets st entries sender time from rfl,
        batch_revealed_eq]
      exact hr
  | reset a time =>
      show (match emergencyResetCoordination st a time with
        | .ok st2 => st2
        | .error _ => st).revealedSecrets.contains s = true
      unfold emergencyResetCoordination
      split_ifs <;> exact hr
  | cancelCoordination a ok =>
      show (match cancelWithSuiCoordination st a ok with
        | .ok st2 => st2
        | .error _ => st).revealedSecrets.contains s = true
      unfold cancelWithSuiCoordination
      split_ifs <;> exact hr
  | deploySrc a b => exact hr

/-- Trace closure of the consumption invariant. -/
theorem consumeInv_execTrace (s : Nat) (hs : s ≠ 0) :
    ∀ (ops : List Op) (st : ResolverState),
      ConsumeInv s st.liveSecrets st.secretCoordinated →
      ConsumeInv s (execTrace st ops).liveSecrets
        (execTrace st ops).secretCoordinated
  | [], _, hI => hI
  | op :: ops, st, hI =>
      consumeInv_execTrace s hs ops (applyOp st op)
        (consumeInv_applyOp s hs st op hI)

/-- Trace closure of `revealedSecrets` monotonicity. -/
theorem revealed_execTrace (s : Nat) :
    ∀ (ops : List Op) (st : ResolverState),
      st.revealedSecrets.contains s = true →
      (execTrace st ops).revealedSecrets.contains s = true
  | [], _, hr => hr
  | op :: ops, st, hr =>
      revealed_execTrace s ops (applyOp st op)
        (revealed_mono_applyOp s st op hr)

/-- The consumption invariant holds in the fresh contract. -/
theorem consumeInv_init (s : Nat) (hs : s ≠ 0) :
    ConsumeInv s initState.liveSecrets initState.secretCoordinated := by
  constructor
  · intro id hid
    exact absurd hid.symm hs
  · intro id1 id2 h1 _
    exact absurd h1.symm hs

/-- Facts carried by a successful `withdrawWithCoordinatedSecret`: the
consumed secret is non-zero, was coordinated and unused, and the new
state differs only by marking it used (and a status write). -/
theorem withdrawCoordinated_ok_facts (st : ResolverState) (id : Nat)
    (escrowOk : Bool) (st2 : ResolverState)
    (h : withdrawWithCoordinatedSecret st id escrowOk = .ok st2) :
    mget st.liveSecrets id ≠ 0 ∧
    st2.liveSecrets = st.liveSecrets ∧
    st2.secretCoordinated = st.secretCoordinated ∧
    st2.revealedSecrets = mget st.liveSecrets id :: st.revealedSecrets := by
  unfold withdrawWithCoordinatedSecret at h
  split_ifs at h with h1 h2 h3 h4
  simp only [Except.ok.injEq] at h
  subst h
  exact ⟨h1, rfl, rfl, rfl⟩

/-- C7: once `withdrawWithCoordinatedSecret` has succeeded for the secret
`s` looked up under some Sui escrow id, in every later state reachable by
any sequence of resolver calls, any `withdrawWithCoordinatedSecret` call
whose escrow id resolves to `s` fails with the secret-already-used error
(`require(!revealedSecrets[secret], "Secret already used")`); `s` is
never consumed twice. -/
theorem withdrawWithCoordinatedSecret_one_shot (ops1 : List Op) (id : Nat)
    (escrowOk : Bool) (st2 : ResolverState)
    (hsucc : withdrawWithCoordinatedSecret (execTrace initState ops1) id
      escrowOk = .ok st2)
    (ops2 : List Op) (id2 : Nat) (escrowOk2 : Bool)
    (hsame : mget (execTrace st2 ops2).liveSecrets id2 =
      mget (execTrace initState ops1).liveSecrets id) :
    withdrawWithCoordinatedSecret (execTrace st2 ops2) id2 escrowOk2 =
      .error .secretAlreadyUsed := by
  obtain ⟨hs, hlive, hcoord, hrev⟩ :=
    withdrawCoordinated_ok_facts _ id escrowOk st2 hsucc
  have hI2 : ConsumeInv (mget (execTrace initState ops1).liveSecrets id)
      st2.liveSecrets st2.secretCoordinated := by
    rw [hlive, hcoord]
    exact consumeInv_execTrace _ hs ops1 initState (consumeInv_init _ hs)
  have hI3 := consumeInv_execTrace _ hs ops2 st2 hI2
  have hrev3 : (execTrace st2 ops2).revealedSecrets.contains
      (mget (execTrace initState ops1).liveSecrets id) = true := by
    refine revealed_execTrace _ ops2 st2 ?_
    rw [hrev]
    simp
  unfold withdrawWithCoordinatedSecret
  rw [hsame]
  rw [if_neg hs, if_neg (by rw [hI3.1 id2 hsame]; simp), if_pos hrev3]

/-- C7 (witness): concrete instance — coordinate secret 42 for escrow id
1, withdraw with it once, then a second withdrawal attempt for the same
id fails with the already-used error. -/
theorem withdrawWithCoordinatedSecret_one_shot_witness :
    withdrawWithCoordinatedSecret
      (execTrace
        { liveSecrets := [(1, 42)]
          secretCoordinated := [42]
          secretTimestamp := [(42, 100)]
          secretCoordinator := [(42, 9)]
          coordinationStatus :=
            [(1, "SECRET_USED_ON_ETHEREUM"), (1, "SECRET_COORDINATED")]
          suiEscrowToOrder := [(1, 7)]
          orderToSuiEscrow := [(7, 1)]
          crossChainMappingExists := [7]
          revealedSecrets := [42] } [])
      1 true = .error .secretAlreadyUsed :=
  withdrawWithCoordinatedSecret_one_shot [.coordinate 1 42 7 9 100] 1
    true _ (by decide) [] 1 true (by decide)

end Necklace
